import Mathlib

/-
Shallow embedding of git-istage (main.go, the latest revision: the one with
the scrollable diff viewer).  Go strings are Lean Strings; the few string
operations the program uses (strings.Split(s, "\n"), strings.TrimSpace) are
re-implemented as structural recursions over the character list so that they
evaluate inside the kernel.  External processes (the git collaborator) are
modelled by an explicit environment record GitEnv: each query field holds the
result the external tool would produce, and command invocations performed via
Run() are collected in a trace.  Machine integers (Go int) are modelled as
Int; Go integer division truncates toward zero, which is Int.tdiv.
A Go runtime panic (out-of-range index or slice) is modelled as Option.none.
-/

namespace GitIstage

/-- Staging classification, from the StagingStatus enum in main.go. -/
inductive StagingStatus where
  | Unstaged
  | Staged
  | PartiallyStaged
deriving DecidableEq

/-- An external command invocation, modelled as its argv list
(exec.Command("git", "add", f) becomes ["git", "add", f]). -/
abbrev GitCmd := List String

/-- Model of strings.Split(s, "\n") on the character list: split at every
newline, keeping empty fields; the empty input yields one empty field. -/
def splitOnNl : List Char → List (List Char)
  | [] => [[]]
  | c :: rest =>
    let r := splitOnNl rest
    if c = '\n' then [] :: r
    else
      match r with
      | [] => [[c]]
      | h :: t => (c :: h) :: t

/-- Model of strings.Split(s, "\n") as used by the program. -/
def splitLines (s : String) : List String :=
  (splitOnNl s.data).map (fun l => String.mk l)

/-- Model of unicode.IsSpace restricted to the Latin-1 whitespace characters,
matching what strings.TrimSpace strips. -/
def goIsSpace (c : Char) : Bool :=
  c == ' ' || c == '\t' || c == '\n' || c == '\x0B' || c == '\x0C' || c == '\r' ||
  c == '\u0085' || c == '\u00A0'

/-- Model of strings.TrimSpace: drop whitespace at both ends. -/
def goTrimSpace (s : String) : String :=
  String.mk (((s.data.dropWhile goIsSpace).reverse.dropWhile goIsSpace).reverse)

/-- One changed file, from the fileEntry struct in main.go.  The stage and
unstage commands are stored as argv lists instead of exec.Cmd handles. -/
structure fileEntry where
  name : String
  status : StagingStatus
  stageCmd : GitCmd
  unstageCmd : GitCmd
deriving DecidableEq

/-- The bubbletea model struct of main.go (latest revision). -/
structure model where
  files : List fileEntry
  cursor : Int
  quitting : Bool
  diffMode : Bool
  diffContent : String
  scrollOffset : Int
  viewportHeight : Int
deriving DecidableEq

/-- Environment describing the external git tool during one session.  Output()
and CombinedOutput() results are Except values: error e is a non-zero exit
whose error formats as e, ok out is captured output.  runExit records the exit
codes that f.stageCmd.Run() and f.unstageCmd.Run() would produce; the program
discards those results, which the theorems below make explicit.  Determinism
of the fields models a repository that does not change behind the back of the tool
during the session. -/
structure GitEnv where
  revParse : Except String String
  porcelain : Except String String
  diffRun : GitCmd → Except String String
  runExit : GitCmd → Int

/-- Events consumed by Update: key presses (by their tea.KeyMsg String()) and
terminal resizes (only the height matters to the program). -/
inductive Msg where
  | key (k : String)
  | windowSize (height : Int)

/-- Translation of interpretGitStatus from main.go: the ordered switch over
the two porcelain status bytes. -/
def interpretGitStatus (x y : Char) (filename : String) :
    StagingStatus × GitCmd × GitCmd :=
  if x = '?' ∧ y = '?' then
    (StagingStatus.Unstaged, ["git", "add", filename], ["git", "rm", "--cached", filename])
  else if x = 'A' ∧ y ≠ ' ' then
    (StagingStatus.PartiallyStaged, ["git", "add", filename], ["git", "rm", "--cached", filename])
  else if x ≠ ' ' ∧ y ≠ ' ' then
    (StagingStatus.PartiallyStaged, ["git", "add", filename], ["git", "restore", "--staged", filename])
  else if x = 'A' then
    (StagingStatus.Staged, ["git", "add", filename], ["git", "rm", "--cached", filename])
  else if x ≠ ' ' then
    (StagingStatus.Staged, ["git", "add", filename], ["git", "restore", "--staged", filename])
  else
    (StagingStatus.Unstaged, ["git", "add", filename], ["git", "restore", "--staged", filename])

/-- Decision table of spec section 4.1, written from the words of the spec: rows
tried in the order the spec gives, first match wins; none if no row matches (the
table of the spec has no row for a double-space code).  The three action phrases
are mapped to the collaborator invocations named in spec section 6. -/
def specStatusTable (x y : Char) (filename : String) :
    Option (StagingStatus × GitCmd × GitCmd) :=
  if x = '?' ∧ y = '?' then
    some (StagingStatus.Unstaged, ["git", "add", filename], ["git", "rm", "--cached", filename])
  else if x = 'A' ∧ y ≠ ' ' then
    some (StagingStatus.PartiallyStaged, ["git", "add", filename], ["git", "rm", "--cached", filename])
  else if x ≠ ' ' ∧ y ≠ ' ' then
    some (StagingStatus.PartiallyStaged, ["git", "add", filename], ["git", "restore", "--staged", filename])
  else if x = 'A' ∧ y = ' ' then
    some (StagingStatus.Staged, ["git", "add", filename], ["git", "rm", "--cached", filename])
  else if x ≠ ' ' ∧ y = ' ' then
    some (StagingStatus.Staged, ["git", "add", filename], ["git", "restore", "--staged", filename])
  else if x = ' ' ∧ y ≠ ' ' then
    some (StagingStatus.Unstaged, ["git", "add", filename], ["git", "restore", "--staged", filename])
  else
    none

/-- Diff command selected by the switch on f.status in getDiff. -/
def diffCmd (f : fileEntry) : GitCmd :=
  match f.status with
  | StagingStatus.Staged => ["git", "d", "--staged", f.name]
  | StagingStatus.Unstaged => ["git", "d", f.name]
  | StagingStatus.PartiallyStaged => ["git", "d", "HEAD", f.name]

/-- Translation of getDiff from main.go: run the selected diff command; on a
non-zero exit return a failure message string instead of propagating. -/
def getDiff (env : GitEnv) (f : fileEntry) : String :=
  match env.diffRun (diffCmd f) with
  | Except.error e => "Failed to show diff: " ++ e
  | Except.ok out => out

/-- Translation of the per-line body of the loop in getGitChanges: skip lines
shorter than 4 characters, take bytes 0 and 1 as the status code, trim the
text from byte 3 on as the filename, and interpret. -/
def parseStatusLine (line : String) : Option fileEntry :=
  match line.data with
  | x :: y :: _ :: c3 :: rest =>
    let filename := goTrimSpace (String.mk (c3 :: rest))
    let r := interpretGitStatus x y filename
    some { name := filename, status := r.1, stageCmd := r.2.1, unstageCmd := r.2.2 }
  | _ => none

/-- Translation of getGitChanges from main.go: check the working tree, query
the porcelain status, and build the entry list. -/
def getGitChanges (env : GitEnv) : Except String (List fileEntry) :=
  match env.revParse with
  | Except.error _ => Except.error "Not inside a git repository"
  | Except.ok checkOutput =>
    if goTrimSpace checkOutput = "true" then
      match env.porcelain with
      | Except.error e => Except.error e
      | Except.ok out => Except.ok ((splitLines out).filterMap parseStatusLine)
    else
      Except.error "Not inside a git repository"

/-- Translation of getMaxScroll from main.go. -/
def getMaxScroll (m : model) : Int :=
  let lines := ((splitLines m.diffContent).length : Int)
  if lines > m.viewportHeight then lines - m.viewportHeight else 0

/-- Translation of moveCursorUp from main.go (latest revision): decrement only
when above the first entry; no circular wrap. -/
def moveCursorUp (m : model) : model :=
  if m.cursor > 0 then
    { m with cursor := m.cursor - 1, scrollOffset := 0 }
  else
    m

/-- Translation of moveCursorDown from main.go (latest revision): increment
only when above entries remain; no circular wrap. -/
def moveCursorDown (m : model) : model :=
  if m.cursor < (m.files.length : Int) - 1 then
    { m with cursor := m.cursor + 1, scrollOffset := 0 }
  else
    m

/-- Go slice indexing l[i]: defined exactly when 0 <= i < len(l); out of range
is a runtime panic, modelled as none. -/
def idx (l : List fileEntry) (i : Int) : Option fileEntry :=
  if 0 ≤ i ∧ i < (l.length : Int) then l.get? i.toNat else none

/-- The pgdown case body of Update: advance by half a viewport, clamped from
above by maxScroll. -/
def pgdownOffset (m : model) : Int :=
  let maxScroll := getMaxScroll m
  let newScrollOffset := m.scrollOffset + Int.tdiv m.viewportHeight 2
  if newScrollOffset > maxScroll then maxScroll else newScrollOffset

/-- The pgup case body of Update: retreat by half a viewport, clamped from
below by zero. -/
def pgupOffset (m : model) : Int :=
  let newScrollOffset := m.scrollOffset - Int.tdiv m.viewportHeight 2
  if newScrollOffset < 0 then 0 else newScrollOffset

/-- The inner key switch of Update (all cases except the quit keys, which
return early in the source).  Returns the updated model and the trace of
commands invoked via Run(); none models a runtime panic. -/
def keyStep (k : String) (m : model) : Option (model × List GitCmd) :=
  if k = "up" then
    some ((if m.diffMode then
            if m.scrollOffset > 0 then { m with scrollOffset := m.scrollOffset - 1 }
            else moveCursorUp m
          else moveCursorUp m), [])
  else if k = "down" then
    some ((if m.diffMode then
            if m.scrollOffset < getMaxScroll m then { m with scrollOffset := m.scrollOffset + 1 }
            else moveCursorDown m
          else moveCursorDown m), [])
  else if k = "pgdown" then
    some ((if m.diffMode then { m with scrollOffset := pgdownOffset m } else m), [])
  else if k = "pgup" then
    some ((if m.diffMode then { m with scrollOffset := pgupOffset m } else m), [])
  else if k = " " then
    if m.diffMode then some (m, [])
    else
      match idx m.files m.cursor with
      | none => none
      | some f =>
        match f.status with
        | StagingStatus.Staged =>
          some ({ m with files := m.files.set m.cursor.toNat ({ f with status := StagingStatus.Unstaged }) },
                [f.unstageCmd])
        | StagingStatus.PartiallyStaged =>
          some ({ m with files := m.files.set m.cursor.toNat ({ f with status := StagingStatus.Staged }) },
                [f.stageCmd])
        | StagingStatus.Unstaged =>
          some ({ m with files := m.files.set m.cursor.toNat ({ f with status := StagingStatus.Staged }) },
                [f.stageCmd])
  else if k = "d" then
    some ({ m with diffMode := !m.diffMode }, [])
  else if k = "g" then
    some ((if m.diffMode then { m with scrollOffset := 0 } else m), [])
  else if k = "G" then
    some ((if m.diffMode then { m with scrollOffset := getMaxScroll m } else m), [])
  else
    some (m, [])

/-- The diff refresh block that follows the key switch in Update: while in
diff mode, refetch the diff of the entry under the cursor. -/
def postKey (env : GitEnv) (r : model × List GitCmd) : Option (model × List GitCmd) :=
  if r.1.diffMode then
    match idx r.1.files r.1.cursor with
    | none => none
    | some f => some ({ r.1 with diffContent := getDiff env f }, r.2)
  else
    some r

/-- Translation of model.Update from main.go (latest revision).  Resize events
recompute the viewport height and return early; the quit keys return early;
every other key goes through the key switch and then the diff refresh. -/
def update (env : GitEnv) (msg : Msg) (m : model) : Option (model × List GitCmd) :=
  match msg with
  | Msg.windowSize h =>
    some ({ m with viewportHeight := h - (m.files.length : Int) - 1 }, [])
  | Msg.key k =>
    if k = "ctrl+c" ∨ k = "q" then
      some ({ m with quitting := true }, [])
    else
      match keyStep k m with
      | none => none
      | some r => postKey env r

/-- One event of the session, keeping only the state. -/
def processEvent (env : GitEnv) (m : model) (msg : Msg) : Option model :=
  match update env msg m with
  | none => none
  | some r => some r.1

/-- A whole event sequence; none as soon as one event panics. -/
def processEvents (env : GitEnv) : model → List Msg → Option model
  | m, [] => some m
  | m, msg :: rest => (processEvent env m msg).bind (fun m1 => processEvents env m1 rest)

/-- Go slicing l[a:b] on a list: defined exactly when 0 <= a <= b <= len(l);
anything else is a runtime panic, modelled as none. -/
def goSlice (l : List String) (a b : Int) : Option (List String) :=
  if 0 ≤ a ∧ a ≤ b ∧ b ≤ (l.length : Int) then
    some ((l.drop a.toNat).take (b - a).toNat)
  else
    none

/-- Checkbox glyph per classification, from model.View (ANSI styling of the
surrounding lipgloss calls is abstracted away). -/
def checkbox (st : StagingStatus) : String :=
  match st with
  | StagingStatus.Staged => "[✓]"
  | StagingStatus.PartiallyStaged => "[~]"
  | StagingStatus.Unstaged => "[ ]"

/-- The browsing-mode body of model.View: one line per entry with cursor
marker and checkbox, then the key-hint footer. -/
def browseView (m : model) : String :=
  String.join (m.files.enum.map (fun p =>
    (if (p.1 : Int) = m.cursor then "> " else "  ") ++ checkbox p.2.status ++ " " ++ p.2.name ++ "\n"))
  ++ "\n↑/↓: navigate  space: toggle  d: diff  q: quit\n"

/-- Translation of model.View from main.go (latest revision).  In diff mode
the visible lines are the Go slice lines[scrollOffset:end] where end is
clamped to the line count from above only; the slice itself can panic, which
is the none result. -/
def view (m : model) : Option String :=
  if m.quitting then some "" else
  if m.diffMode then
    let lines := splitLines m.diffContent
    let endClamped :=
      if m.scrollOffset + m.viewportHeight > (lines.length : Int) then (lines.length : Int)
      else m.scrollOffset + m.viewportHeight
    match goSlice lines m.scrollOffset endClamped with
    | none => none
    | some visibleLines =>
      some (String.intercalate "\n" visibleLines
        ++ "\n↑/↓/PageUp/PageDown scroll (" ++ toString endClamped ++ "/"
        ++ toString lines.length ++ ")  g: top  G: bottom  d: back  q: quit\n")
  else
    some (browseView m)

/-- Outcome of func main before the interactive loop takes over. -/
inductive MainResult where
  | fatalError (msg : String)
  | noChanges
  | runLoop (m : model)
deriving DecidableEq

/-- Translation of func main from main.go: load the changes; a loader error is
printed and the process exits 1; an empty list prints an informational message
and returns; otherwise the interactive program starts on the zero-valued
model extended with the file list. -/
def mainStep (env : GitEnv) : MainResult :=
  match getGitChanges env with
  | Except.error e => MainResult.fatalError e
  | Except.ok files =>
    if files.length = 0 then MainResult.noChanges
    else MainResult.runLoop
      { files := files, cursor := 0, quitting := false, diffMode := false,
        diffContent := "", scrollOffset := 0, viewportHeight := 0 }

/-- Process exit code of each main outcome: os.Exit(1) on a loader error,
normal return (0) otherwise (the interactive path exits 0 on a normal quit). -/
def exitCode : MainResult → Nat
  | MainResult.fatalError _ => 1
  | MainResult.noChanges => 0
  | MainResult.runLoop _ => 0

/-- Whether the interactive event loop is entered at all. -/
def entersLoop : MainResult → Bool
  | MainResult.runLoop _ => true
  | _ => false

/-- Concrete environment for witnesses: a repository where every query
succeeds and every diff is empty. -/
def envTrivial : GitEnv :=
  { revParse := Except.ok "true", porcelain := Except.ok "",
    diffRun := fun _ => Except.ok "", runExit := fun _ => 0 }

/-- Concrete unstaged entry (a modified, unstaged file). -/
def entryU : fileEntry :=
  { name := "a.txt", status := StagingStatus.Unstaged,
    stageCmd := ["git", "add", "a.txt"],
    unstageCmd := ["git", "restore", "--staged", "a.txt"] }

/-- Concrete staged entry. -/
def entryS : fileEntry :=
  { name := "b.txt", status := StagingStatus.Staged,
    stageCmd := ["git", "add", "b.txt"],
    unstageCmd := ["git", "restore", "--staged", "b.txt"] }

/-- Browsing state with two entries and the cursor on the first. -/
def mTwoFiles : model :=
  { files := [entryU, entryS], cursor := 0, quitting := false, diffMode := false,
    diffContent := "", scrollOffset := 0, viewportHeight := 0 }

/-- Browsing state with one staged entry under the cursor. -/
def mOneStaged : model :=
  { files := [entryS], cursor := 0, quitting := false, diffMode := false,
    diffContent := "", scrollOffset := 0, viewportHeight := 0 }

/-- Diff-mode state coherent with envTrivial (its diff of entryU is empty). -/
def mDiffTrivial : model :=
  { files := [entryU], cursor := 0, quitting := false, diffMode := true,
    diffContent := "", scrollOffset := 0, viewportHeight := 5 }

/-- Browsing state carrying a stale non-zero scrollOffset (as left behind by
leaving diff mode). -/
def mStaleScroll : model :=
  { files := [entryU], cursor := 0, quitting := false, diffMode := false,
    diffContent := "", scrollOffset := 5, viewportHeight := 5 }

/-- A 40-line diff text (39 newlines). -/
def diff40 : String := String.mk (List.replicate 39 '\n')

/-- Environment whose every diff is the 40-line text. -/
def env40 : GitEnv :=
  { revParse := Except.ok "true", porcelain := Except.ok "",
    diffRun := fun _ => Except.ok diff40, runExit := fun _ => 0 }

/-- Diff-mode state coherent with env40: 40 content lines, viewport 20. -/
def mDiff40 : model :=
  { files := [entryU], cursor := 0, quitting := false, diffMode := true,
    diffContent := diff40, scrollOffset := 0, viewportHeight := 20 }

/-- Environment whose diff collaborator always fails. -/
def envDiffFail : GitEnv :=
  { revParse := Except.ok "true", porcelain := Except.ok "",
    diffRun := fun _ => Except.error "exit status 1", runExit := fun _ => 0 }

/-- Environment outside any working tree: the check prints false. -/
def envNotRepo : GitEnv :=
  { revParse := Except.ok "false", porcelain := Except.ok "",
    diffRun := fun _ => Except.ok "", runExit := fun _ => 0 }

/-- A 10-line diff text. -/
def longDiff : String := "1\n2\n3\n4\n5\n6\n7\n8\n9\n10"

/-- Environment for the renderer out-of-range scenario: one untracked file
whose unstaged diff has 10 lines and whose staged diff is empty. -/
def envPanicRepo : GitEnv :=
  { revParse := Except.ok "true",
    porcelain := Except.ok "?? file.txt\n",
    diffRun := fun c => if c = ["git", "d", "file.txt"] then Except.ok longDiff else Except.ok "",
    runExit := fun _ => 0 }

/-- The initial model mainStep builds in envPanicRepo. -/
def mPanicStart : model :=
  { files := [{ name := "file.txt", status := StagingStatus.Unstaged,
                stageCmd := ["git", "add", "file.txt"],
                unstageCmd := ["git", "rm", "--cached", "file.txt"] }],
    cursor := 0, quitting := false, diffMode := false,
    diffContent := "", scrollOffset := 0, viewportHeight := 0 }

/-- Event sequence: size the terminal, open the diff, jump to its bottom,
leave diff mode, toggle the staging state of the file, and re-open the diff. -/
def msgsPanic : List Msg :=
  [Msg.windowSize 7, Msg.key "d", Msg.key "G", Msg.key "d", Msg.key " ", Msg.key "d"]

/-- The session state msgsPanic reaches: diff mode showing a one-line diff
with scrollOffset still 5. -/
def mPanicEnd : model :=
  { files := [{ name := "file.txt", status := StagingStatus.Staged,
                stageCmd := ["git", "add", "file.txt"],
                unstageCmd := ["git", "rm", "--cached", "file.txt"] }],
    cursor := 0, quitting := false, diffMode := true,
    diffContent := "", scrollOffset := 5, viewportHeight := 5 }

/-- The six scroll keys handled in diff mode. -/
def scrollKeys : List String := ["up", "down", "pgdown", "pgup", "g", "G"]

/-- Invariant of a well-formed diff-mode state under environment env: diff
mode is on, the viewport height is non-negative, the cursor is in range, the
displayed diff text is the diff the environment yields for the entry under
the cursor, and the scroll offset lies in the clamp interval. -/
def DiffInv (env : GitEnv) (m : model) : Prop :=
  m.diffMode = true ∧
  0 ≤ m.viewportHeight ∧
  0 ≤ m.cursor ∧ m.cursor < (m.files.length : Int) ∧
  (∃ f, idx m.files m.cursor = some f ∧ m.diffContent = getDiff env f) ∧
  0 ≤ m.scrollOffset ∧ m.scrollOffset ≤ getMaxScroll m

/-- Update on a key other than the two quit keys is the key switch followed by
the diff refresh. -/
theorem update_key_eq (env : GitEnv) (m : model) (k : String)
    (h1 : k ≠ "ctrl+c") (h2 : k ≠ "q") :
    update env (Msg.key k) m =
      match keyStep k m with
      | none => none
      | some r => postKey env r := by
  simp only [update]
  rw [if_neg]
  intro hor
  rcases hor with h | h
  · exact h1 h
  · exact h2 h

/-- moveCursorUp only touches cursor and scrollOffset. -/
theorem moveCursorUp_diffMode (m : model) : (moveCursorUp m).diffMode = m.diffMode := by
  unfold moveCursorUp; split <;> rfl

/-- moveCursorDown only touches cursor and scrollOffset. -/
theorem moveCursorDown_diffMode (m : model) : (moveCursorDown m).diffMode = m.diffMode := by
  unfold moveCursorDown; split <;> rfl

/-- Cursor value after moveCursorUp. -/
theorem moveCursorUp_cursor (m : model) :
    (moveCursorUp m).cursor = if m.cursor > 0 then m.cursor - 1 else m.cursor := by
  unfold moveCursorUp; split <;> rfl

/-- Cursor value after moveCursorDown. -/
theorem moveCursorDown_cursor (m : model) :
    (moveCursorDown m).cursor =
      if m.cursor < (m.files.length : Int) - 1 then m.cursor + 1 else m.cursor := by
  unfold moveCursorDown; split <;> rfl

/-- A defined Go index is in range. -/
theorem idx_bounds {l : List fileEntry} {i : Int} {f : fileEntry}
    (h : idx l i = some f) : 0 ≤ i ∧ i < (l.length : Int) := by
  unfold idx at h
  by_cases hc : 0 ≤ i ∧ i < (l.length : Int)
  · exact hc
  · rw [if_neg hc] at h
    exact absurd h (by simp)

/-- An in-range Go index is defined. -/
theorem idx_of_range {l : List fileEntry} {i : Int}
    (h0 : 0 ≤ i) (h1 : i < (l.length : Int)) : ∃ f, idx l i = some f := by
  unfold idx
  rw [if_pos ⟨h0, h1⟩]
  have hlt : i.toNat < l.length := by omega
  exact ⟨l.get ⟨i.toNat, hlt⟩, List.get?_eq_get hlt⟩

/-- getMaxScroll never goes negative. -/
theorem getMaxScroll_nonneg (m : model) : 0 ≤ getMaxScroll m := by
  simp only [getMaxScroll]
  split <;> omega

/-- getMaxScroll reads only the diff text and the viewport height. -/
theorem getMaxScroll_congr (m1 m2 : model)
    (hc : m1.diffContent = m2.diffContent)
    (hv : m1.viewportHeight = m2.viewportHeight) :
    getMaxScroll m1 = getMaxScroll m2 := by
  simp only [getMaxScroll, hc, hv]

/-- Truncating division of a non-negative Int by two is non-negative. -/
theorem tdiv_two_nonneg {a : Int} (h : 0 ≤ a) : 0 ≤ Int.tdiv a 2 :=
  Int.tdiv_nonneg h (by omega)

/-- Claim C1: on every status code covered by the table of the spec (all pairs except the
double space, which porcelain never emits), interpretGitStatus returns exactly
the classification and stage/unstage pair of the ordered decision table of
spec section 4.1; in particular AM maps to PartiallyStaged with
remove-from-index as the unstage action, and A-space maps to Staged with
remove-from-index. -/
theorem c1_status_interpreter (x y : Char) (fn : String)
    (h : ¬(x = ' ' ∧ y = ' ')) :
    specStatusTable x y fn = some (interpretGitStatus x y fn)
  ∧ interpretGitStatus 'A' 'M' fn =
      (StagingStatus.PartiallyStaged, ["git", "add", fn], ["git", "rm", "--cached", fn])
  ∧ interpretGitStatus 'A' ' ' fn =
      (StagingStatus.Staged, ["git", "add", fn], ["git", "rm", "--cached", fn]) := by
  refine ⟨?_, ?_, ?_⟩
  · unfold specStatusTable interpretGitStatus
    split_ifs <;> first | rfl | tauto
  · unfold interpretGitStatus
    rw [if_neg (by decide), if_pos (by decide)]
  · unfold interpretGitStatus
    rw [if_neg (by decide), if_neg (by decide), if_neg (by decide), if_pos (by decide)]

/-- Witness for C1 at the status code MM (both sides modified). -/
theorem c1_status_interpreter_witness :
    specStatusTable 'M' 'M' "a.txt" = some (interpretGitStatus 'M' 'M' "a.txt")
  ∧ interpretGitStatus 'A' 'M' "a.txt" =
      (StagingStatus.PartiallyStaged, ["git", "add", "a.txt"], ["git", "rm", "--cached", "a.txt"])
  ∧ interpretGitStatus 'A' ' ' "a.txt" =
      (StagingStatus.Staged, ["git", "add", "a.txt"], ["git", "rm", "--cached", "a.txt"]) :=
  c1_status_interpreter 'M' 'M' "a.txt" (by decide)

/-- Claim C2 counterexample: in a browsing state with two entries and the
cursor at index 0, an up event leaves the cursor at 0, while the claimed
formula (cursor - 1) mod N demands index 1. -/
theorem c2_counterexample :
    processEvent envTrivial mTwoFiles (Msg.key "up") = some mTwoFiles
  ∧ mTwoFiles.cursor = 0
  ∧ mTwoFiles.files.length = 2
  ∧ (mTwoFiles.cursor - 1) % (mTwoFiles.files.length : Int) = 1
  ∧ mTwoFiles.cursor ≠ 1 := by decide

/-- Claim C2 as amended: in Browsing mode the cursor clamps at the ends
instead of wrapping: up decrements only when the cursor is positive, down
increments only below the last index, and the cursor always stays within
bounds. -/
theorem c2_cursor_clamped (env : GitEnv) (m : model)
    (hmode : m.diffMode = false)
    (h0 : 0 ≤ m.cursor) (hN : m.cursor < (m.files.length : Int)) :
    processEvent env m (Msg.key "up") =
      some (if m.cursor > 0 then { m with cursor := m.cursor - 1, scrollOffset := 0 } else m)
  ∧ processEvent env m (Msg.key "down") =
      some (if m.cursor < (m.files.length : Int) - 1 then
              { m with cursor := m.cursor + 1, scrollOffset := 0 } else m)
  ∧ 0 ≤ (moveCursorUp m).cursor ∧ (moveCursorUp m).cursor < (m.files.length : Int)
  ∧ 0 ≤ (moveCursorDown m).cursor ∧ (moveCursorDown m).cursor < (m.files.length : Int) := by
  have hup : processEvent env m (Msg.key "up") = some (moveCursorUp m) := by
    unfold processEvent
    rw [update_key_eq env m "up" (by decide) (by decide)]
    simp only [keyStep, hmode]
    simp [postKey, moveCursorUp_diffMode, hmode]
  have hdown : processEvent env m (Msg.key "down") = some (moveCursorDown m) := by
    unfold processEvent
    rw [update_key_eq env m "down" (by decide) (by decide)]
    simp only [keyStep, hmode]
    simp [postKey, moveCursorDown_diffMode, hmode]
  refine ⟨?_, ?_, ?_, ?_, ?_, ?_⟩
  · rw [hup]; unfold moveCursorUp; rfl
  · rw [hdown]; unfold moveCursorDown; rfl
  · rw [moveCursorUp_cursor]; split <;> omega
  · rw [moveCursorUp_cursor]; split <;> omega
  · rw [moveCursorDown_cursor]; split <;> omega
  · rw [moveCursorDown_cursor]; split <;> omega

/-- Witness for the amended C2 on a two-entry browsing state. -/
theorem c2_cursor_clamped_witness :
    processEvent envTrivial mTwoFiles (Msg.key "up") =
      some (if mTwoFiles.cursor > 0 then
              { mTwoFiles with cursor := mTwoFiles.cursor - 1, scrollOffset := 0 } else mTwoFiles)
  ∧ processEvent envTrivial mTwoFiles (Msg.key "down") =
      some (if mTwoFiles.cursor < (mTwoFiles.files.length : Int) - 1 then
              { mTwoFiles with cursor := mTwoFiles.cursor + 1, scrollOffset := 0 } else mTwoFiles)
  ∧ 0 ≤ (moveCursorUp mTwoFiles).cursor
  ∧ (moveCursorUp mTwoFiles).cursor < (mTwoFiles.files.length : Int)
  ∧ 0 ≤ (moveCursorDown mTwoFiles).cursor
  ∧ (moveCursorDown mTwoFiles).cursor < (mTwoFiles.files.length : Int) :=
  c2_cursor_clamped envTrivial mTwoFiles (by decide) (by decide) (by decide)

/-- Setting a valid index then reading it back yields the new element. -/
theorem get_set_self {α : Type} : ∀ (l : List α) (n : Nat) (a : α),
    n < l.length → (l.set n a).get? n = some a
  | [], n, _, h => absurd h (by simp)
  | _ :: _, 0, _, _ => rfl
  | _ :: t, n + 1, a, h => by
    simpa using get_set_self t n a (by simpa using h)

/-- Go indexing after an in-place status write at the same index. -/
theorem idx_set_self {l : List fileEntry} {i : Int} {f : fileEntry}
    (hf : idx l i = some f) (g : fileEntry) :
    idx (l.set i.toNat g) i = some g := by
  obtain ⟨h0, h1⟩ := idx_bounds hf
  unfold idx
  rw [if_pos (by simp; omega)]
  exact get_set_self l i.toNat g (by omega)

/-- The key switch on space in browsing mode: run the unstage or stage command of the entry
command and flip its classification in place. -/
theorem space_keyStep (m : model) (f : fileEntry)
    (hmode : m.diffMode = false) (hf : idx m.files m.cursor = some f) :
    keyStep " " m = some
      ({ m with files := m.files.set m.cursor.toNat ({ f with status := if f.status = StagingStatus.Staged then StagingStatus.Unstaged else StagingStatus.Staged }) },
       if f.status = StagingStatus.Staged then [f.unstageCmd] else [f.stageCmd]) := by
  simp only [keyStep, hmode, hf]
  cases hst : f.status <;> simp [hst]

/-- Update on space in browsing mode (full form, with the command trace). -/
theorem space_update (env : GitEnv) (m : model) (f : fileEntry)
    (hmode : m.diffMode = false) (hf : idx m.files m.cursor = some f) :
    update env (Msg.key " ") m = some
      ({ m with files := m.files.set m.cursor.toNat ({ f with status := if f.status = StagingStatus.Staged then StagingStatus.Unstaged else StagingStatus.Staged }) },
       if f.status = StagingStatus.Staged then [f.unstageCmd] else [f.stageCmd]) := by
  rw [update_key_eq env m " " (by decide) (by decide), space_keyStep m f hmode hf]
  simp [postKey, hmode]

/-- After any positive number of browsing-mode toggles the entry under the
cursor is Staged or Unstaged. -/
theorem toggles_keep (env : GitEnv) :
    ∀ (k : Nat) (m : model) (f : fileEntry),
      m.diffMode = false → idx m.files m.cursor = some f →
      (f.status = StagingStatus.Staged ∨ f.status = StagingStatus.Unstaged) →
      ∀ m2, processEvents env m (List.replicate k (Msg.key " ")) = some m2 →
        ∃ g, idx m2.files m2.cursor = some g ∧
          (g.status = StagingStatus.Staged ∨ g.status = StagingStatus.Unstaged) := by
  intro k
  induction k with
  | zero =>
    intro m f hmode hf hst m2 h
    have h2 : some m = some m2 := h
    injection h2 with h3
    exact h3 ▸ ⟨f, hf, hst⟩
  | succ n ih =>
    intro m f hmode hf hst m2 h
    rw [List.replicate_succ] at h
    have hpe : processEvent env m (Msg.key " ") = some
        { m with files := m.files.set m.cursor.toNat ({ f with status := if f.status = StagingStatus.Staged then StagingStatus.Unstaged else StagingStatus.Staged }) } := by
      unfold processEvent
      rw [space_update env m f hmode hf]
    simp only [processEvents, hpe, Option.some_bind] at h
    exact ih ({ m with files := m.files.set m.cursor.toNat ({ f with status := if f.status = StagingStatus.Staged then StagingStatus.Unstaged else StagingStatus.Staged }) })
      ({ f with status := if f.status = StagingStatus.Staged then StagingStatus.Unstaged else StagingStatus.Staged })
      hmode (idx_set_self hf _)
      (by cases hst2 : f.status <;> simp [hst2]) m2 h

/-- Claim C3: a browsing-mode toggle on a Staged entry invokes exactly its
unstage command and sets the classification to Unstaged; on an Unstaged or
PartiallyStaged entry it invokes exactly its stage command and sets the
classification to Staged; the state update is the same under every
environment (the Run() exit codes are never inspected); and after any
positive number of toggles the classification of the entry is Staged or Unstaged,
never a third value. -/
theorem c3_toggle (env env2 : GitEnv) (m : model) (f : fileEntry)
    (hmode : m.diffMode = false) (hf : idx m.files m.cursor = some f) :
    (f.status = StagingStatus.Staged →
      update env (Msg.key " ") m = some
        ({ m with files := m.files.set m.cursor.toNat ({ f with status := StagingStatus.Unstaged }) }, [f.unstageCmd]))
  ∧ ((f.status = StagingStatus.Unstaged ∨ f.status = StagingStatus.PartiallyStaged) →
      update env (Msg.key " ") m = some
        ({ m with files := m.files.set m.cursor.toNat ({ f with status := StagingStatus.Staged }) }, [f.stageCmd]))
  ∧ update env (Msg.key " ") m = update env2 (Msg.key " ") m
  ∧ (∀ k : Nat, 1 ≤ k →
      ∀ m2, processEvents env m (List.replicate k (Msg.key " ")) = some m2 →
        ∃ g, idx m2.files m2.cursor = some g ∧
          (g.status = StagingStatus.Staged ∨ g.status = StagingStatus.Unstaged)) := by
  refine ⟨?_, ?_, ?_, ?_⟩
  · intro hst
    rw [space_update env m f hmode hf]
    simp [hst]
  · intro hst
    rw [space_update env m f hmode hf]
    rcases hst with hst | hst <;> simp [hst]
  · rw [space_update env m f hmode hf, space_update env2 m f hmode hf]
  · intro k hk m2 h
    match k, hk with
    | n + 1, _ =>
      rw [List.replicate_succ] at h
      have hpe : processEvent env m (Msg.key " ") = some
          { m with files := m.files.set m.cursor.toNat ({ f with status := if f.status = StagingStatus.Staged then StagingStatus.Unstaged else StagingStatus.Staged }) } := by
        unfold processEvent
        rw [space_update env m f hmode hf]
      simp only [processEvents, hpe, Option.some_bind] at h
      exact toggles_keep env n
        ({ m with files := m.files.set m.cursor.toNat ({ f with status := if f.status = StagingStatus.Staged then StagingStatus.Unstaged else StagingStatus.Staged }) })
        ({ f with status := if f.status = StagingStatus.Staged then StagingStatus.Unstaged else StagingStatus.Staged })
        hmode (idx_set_self hf _)
        (by cases hst : f.status <;> simp [hst]) m2 h

/-- Witness for C3: one staged entry, toggled under the trivial environment
and a second environment with different Run() exit codes. -/
theorem c3_toggle_witness :
    (entryS.status = StagingStatus.Staged →
      update envTrivial (Msg.key " ") mOneStaged = some
        ({ mOneStaged with files := mOneStaged.files.set mOneStaged.cursor.toNat ({ entryS with status := StagingStatus.Unstaged }) }, [entryS.unstageCmd]))
  ∧ ((entryS.status = StagingStatus.Unstaged ∨ entryS.status = StagingStatus.PartiallyStaged) →
      update envTrivial (Msg.key " ") mOneStaged = some
        ({ mOneStaged with files := mOneStaged.files.set mOneStaged.cursor.toNat ({ entryS with status := StagingStatus.Staged }) }, [entryS.stageCmd]))
  ∧ update envTrivial (Msg.key " ") mOneStaged = update envNotRepo (Msg.key " ") mOneStaged
  ∧ (∀ k : Nat, 1 ≤ k →
      ∀ m2, processEvents envTrivial mOneStaged (List.replicate k (Msg.key " ")) = some m2 →
        ∃ g, idx m2.files m2.cursor = some g ∧
          (g.status = StagingStatus.Staged ∨ g.status = StagingStatus.Unstaged)) :=
  c3_toggle envTrivial envNotRepo mOneStaged entryS (by decide) (by decide)

/-- moveCursorUp leaves the file list alone. -/
theorem moveCursorUp_files (m : model) : (moveCursorUp m).files = m.files := by
  unfold moveCursorUp; split <;> rfl

/-- moveCursorDown leaves the file list alone. -/
theorem moveCursorDown_files (m : model) : (moveCursorDown m).files = m.files := by
  unfold moveCursorDown; split <;> rfl

/-- processEvent on a non-quit key is the key switch composed with the diff
refresh, projected to the state. -/
theorem processEvent_key (env : GitEnv) (m : model) (k : String)
    (h1 : k ≠ "ctrl+c") (h2 : k ≠ "q") (r : model × List GitCmd)
    (hks : keyStep k m = some r) :
    processEvent env m (Msg.key k) = Option.map Prod.fst (postKey env r) := by
  unfold processEvent
  rw [update_key_eq env m k h1 h2, hks]
  show (match postKey env r with | none => none | some r3 => some r3.1) =
    Option.map Prod.fst (postKey env r)
  cases postKey env r <;> rfl

/-- The diff refresh in diff mode with a valid cursor replaces the diff text
with the diff the environment yields for the entry under the cursor. -/
theorem postKey_diff (env : GitEnv) (m1 : model) (f1 : fileEntry)
    (hmode : m1.diffMode = true) (hf : idx m1.files m1.cursor = some f1) :
    postKey env (m1, []) = some ({ m1 with diffContent := getDiff env f1 }, []) := by
  simp [postKey, hmode, hf]

/-- Introduction rule for DiffInv on a state produced by the diff refresh. -/
theorem diffInv_intro (env : GitEnv) (m1 : model) (f1 : fileEntry)
    (hmode : m1.diffMode = true) (hvh : 0 ≤ m1.viewportHeight)
    (hc0 : 0 ≤ m1.cursor) (hcN : m1.cursor < (m1.files.length : Int))
    (hf : idx m1.files m1.cursor = some f1)
    (h0 : 0 ≤ m1.scrollOffset)
    (h1 : m1.scrollOffset ≤ getMaxScroll { m1 with diffContent := getDiff env f1 }) :
    DiffInv env { m1 with diffContent := getDiff env f1 } :=
  ⟨hmode, hvh, hc0, hcN, ⟨f1, hf, rfl⟩, h0, h1⟩

/-- Clamp bounds of the pgdown offset. -/
theorem pgdownOffset_bounds (m : model) (hvh : 0 ≤ m.viewportHeight)
    (h0 : 0 ≤ m.scrollOffset) (_h1 : m.scrollOffset ≤ getMaxScroll m) :
    0 ≤ pgdownOffset m ∧ pgdownOffset m ≤ getMaxScroll m := by
  have hd := tdiv_two_nonneg hvh
  have hmn := getMaxScroll_nonneg m
  simp only [pgdownOffset]
  split <;> omega

/-- Clamp bounds of the pgup offset. -/
theorem pgupOffset_bounds (m : model) (hvh : 0 ≤ m.viewportHeight)
    (_h0 : 0 ≤ m.scrollOffset) (h1 : m.scrollOffset ≤ getMaxScroll m) :
    0 ≤ pgupOffset m ∧ pgupOffset m ≤ getMaxScroll m := by
  have hd := tdiv_two_nonneg hvh
  have hmn := getMaxScroll_nonneg m
  simp only [pgupOffset]
  split <;> omega

/-- One scroll key preserves DiffInv. -/
theorem diffInv_step (env : GitEnv) (m : model) (k : String)
    (hk : k ∈ scrollKeys) (h : DiffInv env m) :
    ∃ m2, processEvent env m (Msg.key k) = some m2 ∧ DiffInv env m2 := by
  obtain ⟨hmode, hvh, hc0, hcN, ⟨f, hf, hcoh⟩, hs0, hs1⟩ := h
  have hmn := getMaxScroll_nonneg m
  have hgm : ∀ m1 : model, m1.viewportHeight = m.viewportHeight →
      getMaxScroll { m1 with diffContent := getDiff env f } = getMaxScroll m := by
    intro m1 hv
    exact getMaxScroll_congr _ m hcoh.symm hv
  fin_cases hk
  · -- up
    have hks : keyStep "up" m = some ((if m.scrollOffset > 0 then
        { m with scrollOffset := m.scrollOffset - 1 } else moveCursorUp m), []) := by
      simp [keyStep, hmode]
    rw [processEvent_key env m "up" (by decide) (by decide) _ hks]
    by_cases hpos : m.scrollOffset > 0
    · rw [if_pos hpos,
        postKey_diff env { m with scrollOffset := m.scrollOffset - 1 } f hmode hf]
      exact ⟨_, rfl, diffInv_intro env { m with scrollOffset := m.scrollOffset - 1 } f
        hmode hvh hc0 hcN hf
        (show 0 ≤ m.scrollOffset - 1 by omega)
        (by rw [hgm { m with scrollOffset := m.scrollOffset - 1 } rfl]
            show m.scrollOffset - 1 ≤ getMaxScroll m
            omega)⟩
    · rw [if_neg hpos]
      by_cases hcpos : m.cursor > 0
      · have hmv : moveCursorUp m = { m with cursor := m.cursor - 1, scrollOffset := 0 } := by
          unfold moveCursorUp; rw [if_pos hcpos]
        rw [hmv]
        obtain ⟨g, hg⟩ := @idx_of_range m.files (m.cursor - 1) (by omega) (by omega)
        rw [postKey_diff env { m with cursor := m.cursor - 1, scrollOffset := 0 } g hmode hg]
        exact ⟨_, rfl, diffInv_intro env { m with cursor := m.cursor - 1, scrollOffset := 0 } g
          hmode hvh
          (show (0 : Int) ≤ m.cursor - 1 by omega)
          (show m.cursor - 1 < (m.files.length : Int) by omega) hg le_rfl
          (getMaxScroll_nonneg _)⟩
      · have hmv : moveCursorUp m = m := by
          unfold moveCursorUp; rw [if_neg hcpos]
        rw [hmv, postKey_diff env m f hmode hf]
        exact ⟨_, rfl, diffInv_intro env m f hmode hvh hc0 hcN hf hs0
          (by rw [hgm m rfl]; exact hs1)⟩
  · -- down
    have hks : keyStep "down" m = some ((if m.scrollOffset < getMaxScroll m then
        { m with scrollOffset := m.scrollOffset + 1 } else moveCursorDown m), []) := by
      simp [keyStep, hmode]
    rw [processEvent_key env m "down" (by decide) (by decide) _ hks]
    by_cases hlt : m.scrollOffset < getMaxScroll m
    · rw [if_pos hlt,
        postKey_diff env { m with scrollOffset := m.scrollOffset + 1 } f hmode hf]
      exact ⟨_, rfl, diffInv_intro env { m with scrollOffset := m.scrollOffset + 1 } f
        hmode hvh hc0 hcN hf
        (show 0 ≤ m.scrollOffset + 1 by omega)
        (by rw [hgm { m with scrollOffset := m.scrollOffset + 1 } rfl]
            show m.scrollOffset + 1 ≤ getMaxScroll m
            omega)⟩
    · rw [if_neg hlt]
      by_cases hcend : m.cursor < (m.files.length : Int) - 1
      · have hmv : moveCursorDown m = { m with cursor := m.cursor + 1, scrollOffset := 0 } := by
          unfold moveCursorDown; rw [if_pos hcend]
        rw [hmv]
        obtain ⟨g, hg⟩ := @idx_of_range m.files (m.cursor + 1) (by omega) (by omega)
        rw [postKey_diff env { m with cursor := m.cursor + 1, scrollOffset := 0 } g hmode hg]
        exact ⟨_, rfl, diffInv_intro env { m with cursor := m.cursor + 1, scrollOffset := 0 } g
          hmode hvh
          (show (0 : Int) ≤ m.cursor + 1 by omega)
          (show m.cursor + 1 < (m.files.length : Int) by omega) hg le_rfl
          (getMaxScroll_nonneg _)⟩
      · have hmv : moveCursorDown m = m := by
          unfold moveCursorDown; rw [if_neg hcend]
        rw [hmv, postKey_diff env m f hmode hf]
        exact ⟨_, rfl, diffInv_intro env m f hmode hvh hc0 hcN hf hs0
          (by rw [hgm m rfl]; exact hs1)⟩
  · -- pgdown
    have hks : keyStep "pgdown" m = some (({ m with scrollOffset := pgdownOffset m }), []) := by
      simp [keyStep, hmode]
    rw [processEvent_key env m "pgdown" (by decide) (by decide) _ hks,
      postKey_diff env { m with scrollOffset := pgdownOffset m } f hmode hf]
    exact ⟨_, rfl, diffInv_intro env { m with scrollOffset := pgdownOffset m } f
      hmode hvh hc0 hcN hf
      ((pgdownOffset_bounds m hvh hs0 hs1).1)
      (by rw [hgm { m with scrollOffset := pgdownOffset m } rfl]
          exact (pgdownOffset_bounds m hvh hs0 hs1).2)⟩
  · -- pgup
    have hks : keyStep "pgup" m = some (({ m with scrollOffset := pgupOffset m }), []) := by
      simp [keyStep, hmode]
    rw [processEvent_key env m "pgup" (by decide) (by decide) _ hks,
      postKey_diff env { m with scrollOffset := pgupOffset m } f hmode hf]
    exact ⟨_, rfl, diffInv_intro env { m with scrollOffset := pgupOffset m } f
      hmode hvh hc0 hcN hf
      ((pgupOffset_bounds m hvh hs0 hs1).1)
      (by rw [hgm { m with scrollOffset := pgupOffset m } rfl]
          exact (pgupOffset_bounds m hvh hs0 hs1).2)⟩
  · -- g
    have hks : keyStep "g" m = some (({ m with scrollOffset := 0 }), []) := by
      simp [keyStep, hmode]
    rw [processEvent_key env m "g" (by decide) (by decide) _ hks,
      postKey_diff env { m with scrollOffset := (0 : Int) } f hmode hf]
    exact ⟨_, rfl, diffInv_intro env { m with scrollOffset := (0 : Int) } f
      hmode hvh hc0 hcN hf le_rfl
      (by rw [hgm { m with scrollOffset := (0 : Int) } rfl]
          exact getMaxScroll_nonneg m)⟩
  · -- G
    have hks : keyStep "G" m = some (({ m with scrollOffset := getMaxScroll m }), []) := by
      simp [keyStep, hmode]
    rw [processEvent_key env m "G" (by decide) (by decide) _ hks,
      postKey_diff env { m with scrollOffset := getMaxScroll m } f hmode hf]
    exact ⟨_, rfl, diffInv_intro env { m with scrollOffset := getMaxScroll m } f
      hmode hvh hc0 hcN hf hmn
      (by rw [hgm { m with scrollOffset := getMaxScroll m } rfl])⟩

/-- DiffInv is preserved along any sequence of scroll keys, and no event in
the sequence panics. -/
theorem diffInv_run (env : GitEnv) : ∀ (ks : List String) (m : model),
    (∀ k ∈ ks, k ∈ scrollKeys) → DiffInv env m →
    ∃ m2, processEvents env m (ks.map Msg.key) = some m2 ∧ DiffInv env m2 := by
  intro ks
  induction ks with
  | nil => intro m _ h; exact ⟨m, rfl, h⟩
  | cons k rest ih =>
    intro m hks hinv
    obtain ⟨m1, hpe, hinv1⟩ := diffInv_step env m k (hks k (by simp)) hinv
    obtain ⟨m2, hrun, hinv2⟩ := ih m1 (fun x hx => hks x (by simp [hx])) hinv1
    refine ⟨m2, ?_, hinv2⟩
    simp only [List.map, processEvents, hpe, Option.some_bind]
    exact hrun

/-- Claim C4: from any diff-mode state satisfying the diff invariant (diff
text matching the entry under the cursor, non-negative viewport height,
scroll offset in the clamp interval), every sequence of scroll events keeps
scrollOffset within the interval from 0 to maxScroll of the current diff
text. -/
theorem c4_scroll_clamped (env : GitEnv) (m : model) (ks : List String) (m2 : model)
    (hks : ∀ k ∈ ks, k ∈ scrollKeys) (hinv : DiffInv env m)
    (hrun : processEvents env m (ks.map Msg.key) = some m2) :
    0 ≤ m2.scrollOffset ∧ m2.scrollOffset ≤ getMaxScroll m2 := by
  obtain ⟨m3, hrun3, hinv3⟩ := diffInv_run env ks m hks hinv
  rw [hrun] at hrun3
  injection hrun3 with h3
  subst h3
  obtain ⟨_, _, _, _, _, h0, h1⟩ := hinv3
  exact ⟨h0, h1⟩

/-- Witness for C4: a jump to bottom, a down, and a page-up on a small
coherent diff-mode state. -/
theorem c4_scroll_clamped_witness :
    0 ≤ mDiffTrivial.scrollOffset ∧ mDiffTrivial.scrollOffset ≤ getMaxScroll mDiffTrivial :=
  c4_scroll_clamped envTrivial mDiffTrivial ["G", "down", "pgup"] mDiffTrivial
    (by decide)
    ⟨by decide, by decide, by decide, by decide, ⟨entryU, by decide, by decide⟩,
      by decide, by decide⟩
    (by decide)

/-- Claim C5 counterexample: from a browsing state left with a stale
scrollOffset of 5, pressing d switches to diff mode and fetches the diff but
does not reset scrollOffset to 0 as the claim demands. -/
theorem c5_counterexample :
    (processEvent envTrivial mStaleScroll (Msg.key "d")).map model.scrollOffset = some 5
  ∧ (processEvent envTrivial mStaleScroll (Msg.key "d")).map model.diffMode = some true
  ∧ (5 : Int) ≠ 0 := by decide

/-- Claim C5 as amended: pressing d in Browsing mode switches to ViewingDiff
and fetches the diff of the entry under the cursor into diffText, leaving
scrollOffset unchanged (it is not reset to 0); pressing d in ViewingDiff mode
switches back to Browsing, also leaving scrollOffset and diffText unchanged. -/
theorem c5_diff_toggle (env : GitEnv) (m : model) (f : fileEntry)
    (hf : idx m.files m.cursor = some f) :
    (m.diffMode = false →
      update env (Msg.key "d") m =
        some ({ m with diffMode := true, diffContent := getDiff env f }, []))
  ∧ (m.diffMode = true →
      update env (Msg.key "d") m = some ({ m with diffMode := false }, [])) := by
  have hks : keyStep "d" m = some ({ m with diffMode := !m.diffMode }, []) := by
    simp [keyStep]
  constructor
  · intro hmode
    rw [update_key_eq env m "d" (by decide) (by decide), hks]
    show postKey env ({ m with diffMode := !m.diffMode }, []) = _
    rw [hmode]
    simp [postKey, hf]
  · intro hmode
    rw [update_key_eq env m "d" (by decide) (by decide), hks]
    show postKey env ({ m with diffMode := !m.diffMode }, []) = _
    rw [hmode]
    simp [postKey]

/-- Witness for the amended C5 on the stale-scroll browsing state. -/
theorem c5_diff_toggle_witness :
    (mStaleScroll.diffMode = false →
      update envTrivial (Msg.key "d") mStaleScroll =
        some ({ mStaleScroll with diffMode := true, diffContent := getDiff envTrivial entryU }, []))
  ∧ (mStaleScroll.diffMode = true →
      update envTrivial (Msg.key "d") mStaleScroll =
        some ({ mStaleScroll with diffMode := false }, [])) :=
  c5_diff_toggle envTrivial mStaleScroll entryU (by decide)

/-- Claim C6: in a coherent diff-mode state with non-negative viewport height
and in-range scroll offset, pgdown sets scrollOffset to
min maxScroll (scrollOffset + viewportHeight/2) and pgup to
max 0 (scrollOffset - viewportHeight/2); both results stay within 0 and
maxScroll, the maxScroll of the state is unchanged by either event, and with
viewportHeight 20, scrollOffset 0 and maxScroll at least 10, pgdown lands
exactly on 10. -/
theorem c6_page_scroll (env : GitEnv) (m : model) (f : fileEntry)
    (hmode : m.diffMode = true) (hvh : 0 ≤ m.viewportHeight)
    (hf : idx m.files m.cursor = some f) (hcoh : m.diffContent = getDiff env f)
    (h0 : 0 ≤ m.scrollOffset) (h1 : m.scrollOffset ≤ getMaxScroll m) :
    (processEvent env m (Msg.key "pgdown")).map model.scrollOffset =
      some (min (getMaxScroll m) (m.scrollOffset + Int.tdiv m.viewportHeight 2))
  ∧ (processEvent env m (Msg.key "pgup")).map model.scrollOffset =
      some (max 0 (m.scrollOffset - Int.tdiv m.viewportHeight 2))
  ∧ (processEvent env m (Msg.key "pgdown")).map getMaxScroll = some (getMaxScroll m)
  ∧ (processEvent env m (Msg.key "pgup")).map getMaxScroll = some (getMaxScroll m)
  ∧ 0 ≤ min (getMaxScroll m) (m.scrollOffset + Int.tdiv m.viewportHeight 2)
  ∧ min (getMaxScroll m) (m.scrollOffset + Int.tdiv m.viewportHeight 2) ≤ getMaxScroll m
  ∧ 0 ≤ max 0 (m.scrollOffset - Int.tdiv m.viewportHeight 2)
  ∧ max 0 (m.scrollOffset - Int.tdiv m.viewportHeight 2) ≤ getMaxScroll m
  ∧ (m.viewportHeight = 20 → m.scrollOffset = 0 → 10 ≤ getMaxScroll m →
      (processEvent env m (Msg.key "pgdown")).map model.scrollOffset = some 10) := by
  have hd := tdiv_two_nonneg hvh
  have hmn := getMaxScroll_nonneg m
  have hgm : ∀ m1 : model, m1.viewportHeight = m.viewportHeight →
      getMaxScroll { m1 with diffContent := getDiff env f } = getMaxScroll m := by
    intro m1 hv
    exact getMaxScroll_congr _ m hcoh.symm hv
  have hksd : keyStep "pgdown" m = some (({ m with scrollOffset := pgdownOffset m }), []) := by
    simp [keyStep, hmode]
  have hksu : keyStep "pgup" m = some (({ m with scrollOffset := pgupOffset m }), []) := by
    simp [keyStep, hmode]
  have hpd : processEvent env m (Msg.key "pgdown") =
      some ({ m with scrollOffset := pgdownOffset m, diffContent := getDiff env f }) := by
    rw [processEvent_key env m "pgdown" (by decide) (by decide) _ hksd,
      postKey_diff env { m with scrollOffset := pgdownOffset m } f hmode hf]
    rfl
  have hpu : processEvent env m (Msg.key "pgup") =
      some ({ m with scrollOffset := pgupOffset m, diffContent := getDiff env f }) := by
    rw [processEvent_key env m "pgup" (by decide) (by decide) _ hksu,
      postKey_diff env { m with scrollOffset := pgupOffset m } f hmode hf]
    rfl
  have hdmin : pgdownOffset m =
      min (getMaxScroll m) (m.scrollOffset + Int.tdiv m.viewportHeight 2) := by
    simp only [pgdownOffset]
    rw [min_def]
    split_ifs <;> omega
  have humax : pgupOffset m =
      max 0 (m.scrollOffset - Int.tdiv m.viewportHeight 2) := by
    simp only [pgupOffset]
    rw [max_def]
    split_ifs <;> omega
  refine ⟨?_, ?_, ?_, ?_, ?_, ?_, ?_, ?_, ?_⟩
  · rw [hpd]
    show some (pgdownOffset m) = _
    rw [hdmin]
  · rw [hpu]
    show some (pgupOffset m) = _
    rw [humax]
  · rw [hpd]
    show some (getMaxScroll ({ m with scrollOffset := pgdownOffset m, diffContent := getDiff env f })) = _
    rw [hgm { m with scrollOffset := pgdownOffset m } rfl]
  · rw [hpu]
    show some (getMaxScroll ({ m with scrollOffset := pgupOffset m, diffContent := getDiff env f })) = _
    rw [hgm { m with scrollOffset := pgupOffset m } rfl]
  · rw [min_def]; split_ifs <;> omega
  · exact min_le_left _ _
  · exact le_max_left _ _
  · rw [max_def]; split_ifs <;> omega
  · intro h20 hoff hmax
    have hd10 : Int.tdiv m.viewportHeight 2 = 10 := by rw [h20]; decide
    rw [hpd]
    show some (pgdownOffset m) = some 10
    have hres : pgdownOffset m = 10 := by
      simp only [pgdownOffset]
      rw [hoff, hd10]
      split_ifs <;> omega
    rw [hres]

/-- Witness for C6 on a 40-line diff with viewport height 20: pgdown from the
top lands on line offset 10. -/
theorem c6_page_scroll_witness :
    (processEvent env40 mDiff40 (Msg.key "pgdown")).map model.scrollOffset =
      some (min (getMaxScroll mDiff40) (mDiff40.scrollOffset + Int.tdiv mDiff40.viewportHeight 2))
  ∧ (processEvent env40 mDiff40 (Msg.key "pgup")).map model.scrollOffset =
      some (max 0 (mDiff40.scrollOffset - Int.tdiv mDiff40.viewportHeight 2))
  ∧ (processEvent env40 mDiff40 (Msg.key "pgdown")).map getMaxScroll = some (getMaxScroll mDiff40)
  ∧ (processEvent env40 mDiff40 (Msg.key "pgup")).map getMaxScroll = some (getMaxScroll mDiff40)
  ∧ 0 ≤ min (getMaxScroll mDiff40) (mDiff40.scrollOffset + Int.tdiv mDiff40.viewportHeight 2)
  ∧ min (getMaxScroll mDiff40) (mDiff40.scrollOffset + Int.tdiv mDiff40.viewportHeight 2) ≤
      getMaxScroll mDiff40
  ∧ 0 ≤ max 0 (mDiff40.scrollOffset - Int.tdiv mDiff40.viewportHeight 2)
  ∧ max 0 (mDiff40.scrollOffset - Int.tdiv mDiff40.viewportHeight 2) ≤ getMaxScroll mDiff40
  ∧ (mDiff40.viewportHeight = 20 → mDiff40.scrollOffset = 0 → 10 ≤ getMaxScroll mDiff40 →
      (processEvent env40 mDiff40 (Msg.key "pgdown")).map model.scrollOffset = some 10) :=
  c6_page_scroll env40 mDiff40 entryU (by decide) (by decide) (by decide) (by decide)
    (by decide) (by decide)

/-- Claim C7: whenever the diff collaborator exits non-zero, getDiff returns
a short human-readable failure string instead of propagating an error (the
function is total into String, so the renderer always has displayable text),
and the invocation is selected by the classification of the entry: a Staged entry
diffs the index against HEAD. -/
theorem c7_diff_failure (env : GitEnv) (f : fileEntry) (e : String)
    (h : env.diffRun (diffCmd f) = Except.error e) :
    getDiff env f = "Failed to show diff: " ++ e
  ∧ (f.status = StagingStatus.Staged → diffCmd f = ["git", "d", "--staged", f.name]) := by
  constructor
  · unfold getDiff
    rw [h]
  · intro hst
    unfold diffCmd
    rw [hst]

/-- Witness for C7: a staged entry under an environment whose diff
collaborator always fails. -/
theorem c7_diff_failure_witness :
    getDiff envDiffFail entryS = "Failed to show diff: " ++ "exit status 1"
  ∧ (entryS.status = StagingStatus.Staged →
      diffCmd entryS = ["git", "d", "--staged", entryS.name]) :=
  c7_diff_failure envDiffFail entryS "exit status 1" rfl

/-- Claim C8: if the working-tree check exits non-zero or its trimmed output
is not the literal true, the loader returns the not-a-repository error, and
main prints it and exits with code 1 without ever entering the event loop. -/
theorem c8_not_a_repository (env : GitEnv)
    (h : ∀ out, env.revParse = Except.ok out → goTrimSpace out ≠ "true") :
    getGitChanges env = Except.error "Not inside a git repository"
  ∧ mainStep env = MainResult.fatalError "Not inside a git repository"
  ∧ exitCode (mainStep env) = 1
  ∧ entersLoop (mainStep env) = false := by
  have hg : getGitChanges env = Except.error "Not inside a git repository" := by
    unfold getGitChanges
    cases henv : env.revParse with
    | error e => rfl
    | ok out => simp [h out henv]
  refine ⟨hg, ?_, ?_, ?_⟩ <;> simp [mainStep, hg, exitCode, entersLoop]

/-- Witness for C8: an environment whose check prints false. -/
theorem c8_not_a_repository_witness :
    getGitChanges envNotRepo = Except.error "Not inside a git repository"
  ∧ mainStep envNotRepo = MainResult.fatalError "Not inside a git repository"
  ∧ exitCode (mainStep envNotRepo) = 1
  ∧ entersLoop (mainStep envNotRepo) = false :=
  c8_not_a_repository envNotRepo (by
    intro out hout
    have hout2 : (Except.ok "false" : Except String String) = Except.ok out := hout
    injection hout2 with h2
    subst h2
    decide)

/-- Claim C9: when the working-tree check passes but every status line is
shorter than the minimum valid length, the loader returns the empty list, and
main reports no changes and exits with code 0 without entering the event
loop; the empty list is not treated as an error. -/
theorem c9_no_changes (env : GitEnv) (out : String)
    (hcheck : env.revParse = Except.ok "true")
    (hstatus : env.porcelain = Except.ok out)
    (hshort : ∀ l ∈ splitLines out, l.data.length < 4) :
    getGitChanges env = Except.ok []
  ∧ mainStep env = MainResult.noChanges
  ∧ exitCode (mainStep env) = 0
  ∧ entersLoop (mainStep env) = false := by
  have hparse : ∀ l ∈ splitLines out, parseStatusLine l = none := by
    intro l hl
    have hlen := hshort l hl
    unfold parseStatusLine
    rcases hdl : l.data with _ | ⟨a, _ | ⟨b, _ | ⟨c, _ | ⟨d, rest⟩⟩⟩⟩
    · rfl
    · rfl
    · rfl
    · rfl
    · rw [hdl] at hlen
      simp at hlen
      omega
  have hempty : (splitLines out).filterMap parseStatusLine = [] :=
    List.filterMap_eq_nil_iff.mpr hparse
  have hg : getGitChanges env = Except.ok [] := by
    simp only [getGitChanges, hcheck, hstatus]
    rw [if_pos (show goTrimSpace "true" = "true" by decide)]
    rw [hempty]
  refine ⟨hg, ?_, ?_, ?_⟩ <;> simp [mainStep, hg, exitCode, entersLoop]

/-- Witness for C9: an empty porcelain output inside a working tree. -/
theorem c9_no_changes_witness :
    getGitChanges envTrivial = Except.ok []
  ∧ mainStep envTrivial = MainResult.noChanges
  ∧ exitCode (mainStep envTrivial) = 0
  ∧ entersLoop (mainStep envTrivial) = false :=
  c9_no_changes envTrivial "" rfl rfl (by decide)

/-- Claim C10 (code-bug exhibit): the event sequence msgsPanic is reachable
from the initial state the loader builds in envPanicRepo (size the terminal, open the
10-line diff, jump to its bottom so scrollOffset becomes 5, leave diff mode,
toggle the file to Staged, re-open the diff, which is now one line) and ends
in a diff-mode state whose scrollOffset 5 exceeds the line count 1 of the
current diff text, so the renderer slices lines[5:1] with its lower bound
above its upper bound: a Go runtime panic, modelled as View returning none. -/
theorem c10_view_out_of_range :
    mainStep envPanicRepo = MainResult.runLoop mPanicStart
  ∧ processEvents envPanicRepo mPanicStart msgsPanic = some mPanicEnd
  ∧ mPanicEnd.diffMode = true
  ∧ (splitLines mPanicEnd.diffContent).length = 1
  ∧ mPanicEnd.scrollOffset = 5
  ∧ ((splitLines mPanicEnd.diffContent).length : Int) < mPanicEnd.scrollOffset
  ∧ view mPanicEnd = none := by decide

end GitIstage
